import Mathlib

/-
Verification of the aggregation pipeline in scripts/combine_results.py.

The script is shallowly embedded:
  * images are modelled by their (height, width) shape, which is everything
    the compositing code inspects (channel counts are constant 3 and never
    branch the control flow);
  * csv cells are modelled by `Cell` (a numeric cell carrying its exact value,
    or a non-numeric text cell); float32 arithmetic is idealised to exact
    rationals, and standard deviations are compared through their squares
    (x ↦ x² is injective on the nonnegative reals, so equalities and
    disequalities of standard errors are settled on squared values);
  * Python exceptions are modelled by `Except Err`, with one constructor per
    exception kind the script can actually raise, and the script's statements
    are written as explicit matches on those results;
  * the filesystem is a record `FS` of the pure read functions the script
    performs (directory listing, csv contents, glob-discovered task/metric
    pairs); writes (jpg, gif, html) are presentation-only side effects and are
    not observable by any claim, so they are not carried in the state.
-/

/-- Exception kinds raisable by the modelled parts of the script.
`fileNotFound` is Python's FileNotFoundError (from `open`),
`parseError` a float-conversion ValueError in `astype`,
`arrayError` a numpy indexing/shape error from slicing a non-2-D array,
`cvError` the OpenCV assertion error raised by `cvtColor` on a null image,
`valueError` numpy's concatenate mismatch / tuple-unpacking ValueError,
`nameError` Python's NameError for reading an unbound variable,
`indexError` Python's IndexError for `list[0]` on an empty list. -/
inductive Err where
  | fileNotFound
  | parseError
  | arrayError
  | cvError
  | valueError
  | nameError
  | indexError
  deriving DecidableEq, Repr

/-- An in-memory image, abstracted to its shape: `shape[:2] = (height, width)`. -/
structure Img where
  height : ℕ
  width : ℕ
  deriving DecidableEq, Repr, Inhabited

/- ---------------------------------------------------------------------------
load_metrics (source lines 11-18):
    reader rows -> np.array(rows)[1:, 1:-1].astype(np.float32)
--------------------------------------------------------------------------- -/

/-- One csv cell: either text that parses as a float (carrying its exact value)
or text that does not. -/
inductive Cell where
  | num (q : ℚ)
  | text (s : String)
  deriving DecidableEq, Repr

/-- Whether the cell's text parses as a float. -/
def Cell.isNum : Cell → Bool
  | .num _ => true
  | .text _ => false

/-- The parsed value of a numeric cell (0 for a text cell; only used where
`isNum` has been established). -/
def Cell.val : Cell → ℚ
  | .num q => q
  | .text _ => 0

/-- `astype(np.float32)` on one cell: a non-numeric cell raises ValueError. -/
def astypeCell : Cell → Except Err ℚ
  | .num q => .ok q
  | .text _ => .error .parseError

/-- `astype` over one row, failing on the first non-numeric cell. -/
def astypeRow : List Cell → Except Err (List ℚ)
  | [] => .ok []
  | c :: cs =>
    match astypeCell c with
    | .error e => .error e
    | .ok q =>
      match astypeRow cs with
      | .error e => .error e
      | .ok qs => .ok (q :: qs)

/-- `astype` over the whole sliced matrix. -/
def astypeMatrix : List (List Cell) → Except Err (List (List ℚ))
  | [] => .ok []
  | r :: rs =>
    match astypeRow r with
    | .error e => .error e
    | .ok qr =>
      match astypeMatrix rs with
      | .error e => .error e
      | .ok qrs => .ok (qr :: qrs)

/-- `load_metrics`: `np.array(rows)[1:, 1:-1].astype(np.float32)`.
`np.array(rows)` is 2-D exactly when `rows` is non-empty and rectangular;
otherwise the 2-D slice `[1:, 1:-1]` raises.  The slice drops the header row,
the id column and the trailing mean column; `astype` then parses the rest. -/
def load_metrics (rows : List (List Cell)) : Except Err (List (List ℚ)) :=
  match rows with
  | [] => .error .arrayError
  | r0 :: rest =>
    if rest.all (fun r => r.length == r0.length) then
      -- rows[1:] sliced to row[1:-1], then astype
      astypeMatrix (rest.map (fun r => (r.drop 1).dropLast))
    else
      .error .arrayError

/- ---------------------------------------------------------------------------
load_images (source lines 21-27):
    cv2.imread returns None for a missing/unreadable file (it does not raise);
    cv2.cvtColor then raises an OpenCV assertion error on the null image.
--------------------------------------------------------------------------- -/

/-- `cv2.cvtColor(image, COLOR_BGR2RGB)`: raises the OpenCV `!_src.empty()`
assertion error when `cv2.imread` returned None; the channel permutation does
not change the shape. -/
def cv2_cvtColor : Option Img → Except Err Img
  | none => .error .cvError
  | some img => .ok img

/-- `load_images`: decode every path in order, appending to the result list;
an exception aborts the whole call, discarding the partial list.  `decode`
models `cv2.imread`: `some` for an existing decodable file, `none` otherwise. -/
def load_images (decode : String → Option Img) : List String → Except Err (List Img)
  | [] => .ok []
  | f :: fs =>
    match cv2_cvtColor (decode f) with
    | .error e => .error e
    | .ok img =>
      match load_images decode fs with
      | .error e => .error e
      | .ok imgs => .ok (img :: imgs)

/- ---------------------------------------------------------------------------
concat_images (source lines 85-109).
--------------------------------------------------------------------------- -/

/-- The global minimum fold of `concat_images`: the first image initialises
`(min_height, min_width)`, every further image lowers each componentwise. -/
def shapeMin (all_images : List (List Img)) : Option (ℕ × ℕ) :=
  all_images.foldl
    (fun acc seq =>
      seq.foldl
        (fun acc2 img =>
          match acc2 with
          | none => some (img.height, img.width)
          | some mhw => some (min mhw.1 img.height, min mhw.2 img.width))
        acc)
    none

/-- `cv2.resize(img, dsize)`: OpenCV's `dsize` is `(width, height)`, so the
result has shape `(dsize[1], dsize[0])`. -/
def cv2_resize (img : Img) (dsize : ℕ × ℕ) : Img :=
  { height := dsize.2, width := dsize.1 }

/-- `maybe_resize`: the source compares the shape against
`(min_height, min_width)` but then passes `(min_height, min_width)` as
`dsize`, i.e. width `min_height` and height `min_width`. -/
def maybe_resize (minH minW : ℕ) (img : Img) : Img :=
  if (img.height, img.width) ≠ (minH, minW) then cv2_resize img (minH, minW) else img

/-- Minimum length of the inner lists (0 when the outer list is empty). -/
def minLen : List (List Img) → ℕ
  | [] => 0
  | xs :: rest => rest.foldl (fun m ys => min m ys.length) xs.length

/-- Python's `zip(*all_images)`: the `t`-th tuple collects the `t`-th element
of every inner list, truncating at the shortest inner list; `zip()` of an
empty argument list is empty.  The `getD` default is never selected because
`t < minLen xss` bounds every access. -/
def zipStar (xss : List (List Img)) : List (List Img) :=
  match xss with
  | [] => []
  | _ :: _ => (List.range (minLen xss)).map (fun t => xss.map (fun xs => xs.getD t default))

/-- `np.concatenate(frame, axis=1)`: requires at least one array and equal
heights, producing one image of that height and the summed width. -/
def np_concat_axis1 (frame : List Img) : Except Err Img :=
  match frame with
  | [] => .error .valueError
  | i :: rest =>
    if rest.all (fun j => j.height == i.height) then
      .ok { height := i.height, width := i.width + (rest.map Img.width).sum }
    else
      .error .valueError

/-- The final list comprehension of `concat_images`: concatenate every
time-aligned tuple, aborting on the first numpy error. -/
def concatFrames : List (List Img) → Except Err (List Img)
  | [] => .ok []
  | frame :: rest =>
    match np_concat_axis1 frame with
    | .error e => .error e
    | .ok img =>
      match concatFrames rest with
      | .error e => .error e
      | .ok imgs => .ok (img :: imgs)

/-- `concat_images`: compute the global minimum shape, resize every frame
whose shape differs from `(min_height, min_width)`, then horizontally
concatenate the zipped tuples.  When there is no image at all the minimum
stays `None` and the zip is empty, so the resize closure is never applied. -/
def concat_images (all_images : List (List Img)) : Except Err (List Img) :=
  let resized :=
    match shapeMin all_images with
    | none => all_images
    | some mhw => all_images.map (fun seq => seq.map (maybe_resize mhw.1 mhw.2))
  concatFrames (zipStar resized)

/- ---------------------------------------------------------------------------
Table statistics (source lines 192-200):
    metric_mean = np.mean(metric)            -- over all cells
    metric_se   = np.std(metric) / np.sqrt(len(metric))
np.std is the population standard deviation (ddof = 0) of all cells;
len(metric) is the number of rows.  Standard errors are compared through
their squares, avoiding the (order-preserving) square root.
--------------------------------------------------------------------------- -/

/-- All cells of the matrix in row-major order (numpy reductions flatten). -/
def flattenM (m : List (List ℚ)) : List ℚ := m.flatten

/-- `np.mean(metric)`: arithmetic mean of all cells. -/
def np_mean (m : List (List ℚ)) : ℚ :=
  (flattenM m).sum / ((flattenM m).length : ℚ)

/-- `np.std(metric) ** 2`: the population variance (ddof = 0) of all cells. -/
def np_var (m : List (List ℚ)) : ℚ :=
  ((flattenM m).map (fun x => (x - np_mean m) * (x - np_mean m))).sum
    / ((flattenM m).length : ℚ)

/-- `(np.std(metric) / np.sqrt(len(metric))) ** 2`, the square of the standard
error the script prints. -/
def metric_se_sq (m : List (List ℚ)) : ℚ :=
  np_var m / (m.length : ℚ)

/-- Modelled from the spec: the *sample* variance (ddof = 1) of all cells,
which the spec's definition of standard error prescribes. -/
def sample_var (m : List (List ℚ)) : ℚ :=
  ((flattenM m).map (fun x => (x - np_mean m) * (x - np_mean m))).sum
    / (((flattenM m).length : ℚ) - 1)

/-- Modelled from the spec: the square of `sample std / sqrt(number of rows)`. -/
def claimed_se_sq (m : List (List ℚ)) : ℚ :=
  sample_var m / (m.length : ℚ)

/- ---------------------------------------------------------------------------
Python string and tuple ordering, used by sorted(...).
--------------------------------------------------------------------------- -/

/-- Python string `<`: lexicographic comparison by code point, which is the
order of the underlying character list. -/
def pyStrLt (a b : String) : Prop := a.data < b.data

instance : DecidableRel pyStrLt := fun a b => by
  unfold pyStrLt
  infer_instance

/-- Python string `<=`. -/
def pyStrLe (a b : String) : Prop := pyStrLt a b ∨ a = b

instance : DecidableRel pyStrLe := fun a b => by
  unfold pyStrLe
  infer_instance

/-- `sorted` on a list of strings.  Python's sort is stable, and any two
stable sorts for the same total preorder compute the same list, so insertion
sort is an exact model. -/
def pySortedStr (l : List String) : List String := l.insertionSort pyStrLe

/-- One element of `zip(sort_criterion, range(len(method_names)),
method_names, method_dirs)`: mean, original index, name, directory. -/
abbrev MethodEntry := ℚ × ℕ × String × String

/-- Python `<=` on those 4-tuples: lexicographic, componentwise. -/
def pyTupleLe (a b : MethodEntry) : Prop :=
  a.1 < b.1 ∨ (a.1 = b.1 ∧
    (a.2.1 < b.2.1 ∨ (a.2.1 = b.2.1 ∧
      (pyStrLt a.2.2.1 b.2.2.1 ∨ (a.2.2.1 = b.2.2.1 ∧
        pyStrLe a.2.2.2 b.2.2.2)))))

instance : DecidableRel pyTupleLe := fun a b => by
  unfold pyTupleLe
  infer_instance

instance : IsTrans MethodEntry pyTupleLe where
  trans a b c hab hbc := by
    unfold pyTupleLe at hab hbc ⊢
    rcases hab with h1 | ⟨e1, hab⟩
    · rcases hbc with h2 | ⟨e2, _⟩
      · exact Or.inl (lt_trans h1 h2)
      · exact Or.inl (by rw [← e2]; exact h1)
    · rcases hbc with h2 | ⟨e2, hbc⟩
      · exact Or.inl (by rw [e1]; exact h2)
      · refine Or.inr ⟨e1.trans e2, ?_⟩
        rcases hab with h1 | ⟨f1, hab⟩
        · rcases hbc with h2 | ⟨f2, _⟩
          · exact Or.inl (lt_trans h1 h2)
          · exact Or.inl (by rw [← f2]; exact h1)
        · rcases hbc with h2 | ⟨f2, hbc⟩
          · exact Or.inl (by rw [f1]; exact h2)
          · refine Or.inr ⟨f1.trans f2, ?_⟩
            rcases hab with h1 | ⟨g1, hab⟩
            · rcases hbc with h2 | ⟨g2, _⟩
              · exact Or.inl (lt_trans (α := List Char) h1 h2)
              · exact Or.inl (by rw [← g2]; exact h1)
            · rcases hbc with h2 | ⟨g2, hbc⟩
              · exact Or.inl (by rw [g1]; exact h2)
              · refine Or.inr ⟨g1.trans g2, ?_⟩
                rcases hab with h1 | e1b
                · rcases hbc with h2 | e2b
                  · exact Or.inl (lt_trans (α := List Char) h1 h2)
                  · exact Or.inl (by rw [← e2b]; exact h1)
                · rcases hbc with h2 | e2b
                  · exact Or.inl (by rw [e1b]; exact h2)
                  · exact Or.inr (e1b.trans e2b)

instance : IsTotal MethodEntry pyTupleLe where
  total a b := by
    unfold pyTupleLe
    rcases lt_trichotomy a.1 b.1 with h1 | h1 | h1
    · exact Or.inl (Or.inl h1)
    · rcases lt_trichotomy a.2.1 b.2.1 with h2 | h2 | h2
      · exact Or.inl (Or.inr ⟨h1, Or.inl h2⟩)
      · rcases lt_trichotomy a.2.2.1.data b.2.2.1.data with h3 | h3 | h3
        · exact Or.inl (Or.inr ⟨h1, Or.inr ⟨h2, Or.inl h3⟩⟩)
        · have e3 : a.2.2.1 = b.2.2.1 := by
            cases hs1 : a.2.2.1
            cases hs2 : b.2.2.1
            rw [hs1, hs2] at h3
            exact congrArg String.mk (by simpa using h3)
          rcases lt_trichotomy a.2.2.2.data b.2.2.2.data with h4 | h4 | h4
          · exact Or.inl (Or.inr ⟨h1, Or.inr ⟨h2, Or.inr ⟨e3, Or.inl h4⟩⟩⟩)
          · have e4 : a.2.2.2 = b.2.2.2 := by
              cases hs1 : a.2.2.2
              cases hs2 : b.2.2.2
              rw [hs1, hs2] at h4
              exact congrArg String.mk (by simpa using h4)
            exact Or.inl (Or.inr ⟨h1, Or.inr ⟨h2, Or.inr ⟨e3, Or.inr e4⟩⟩⟩)
          · exact Or.inr (Or.inr ⟨h1.symm, Or.inr ⟨h2.symm, Or.inr ⟨e3.symm, Or.inl h4⟩⟩⟩)
        · exact Or.inr (Or.inr ⟨h1.symm, Or.inr ⟨h2.symm, Or.inl h3⟩⟩)
      · exact Or.inr (Or.inr ⟨h1.symm, Or.inl h2⟩)
    · exact Or.inr (Or.inl h1)

/-- `sorted(zip(sort_criterion, range(len(method_names)), method_names,
method_dirs))` (source line 156): a stable sort of the tagged entries,
modelled by insertion sort (stable sorts agree extensionally). -/
def sort_methods (entries : List MethodEntry) : List MethodEntry :=
  entries.insertionSort pyTupleLe

/-- The zipped tagged entries the script builds before sorting. -/
def mkEntries (means : List ℚ) (names dirs : List String) : List MethodEntry :=
  means.zip ((List.range names.length).zip (names.zip dirs))

/- ---------------------------------------------------------------------------
Default method-directory discovery (source lines 130-142).
--------------------------------------------------------------------------- -/

/-- The loop `for first_method_dir in ['ground_truth', 'repeat']: if present,
remove from the candidate list and append to the front list`. -/
def pullFront (firsts : List String) (l : List String) : List String × List String :=
  firsts.foldl
    (fun acc d => if d ∈ acc.2 then (acc.1 ++ [d], acc.2.erase d) else acc)
    ([], l)

/-- Default discovery: drop the reserved `web` output directory from the
listing, pull `ground_truth` then `repeat` to the front, sort the rest. -/
def discoverMethodDirs (listing : List String) : List String :=
  let candidates := listing.erase "web"
  let fr := pullFront ["ground_truth", "repeat"] candidates
  fr.1 ++ pySortedStr fr.2

/- ---------------------------------------------------------------------------
main (source lines 112-277), restricted to the observables the claims need:
which exception (if any) ends the run, and which sample indices the image
loop iterates.  Per-sample image aggregation is abstracted to a success,
matching the claims' well-formed-input hypotheses; html output is
presentation only.
--------------------------------------------------------------------------- -/

/-- The command-line options that steer the modelled control flow.
`use_ffmpeg`, `batch_size` and `show_se` only select an encoder backend, a
flush cadence and extra table columns; they do not change it. -/
structure Args where
  results_dir : String
  method_dirs : Option (List String)
  method_names : Option (List String)
  sort_by : Option (String × String)
  only_metrics : Bool

/-- The pure reads the script performs: the results-directory listing, the
csv rows for `<dir>/<task>/metrics/<metric>.csv` (`none` = missing file), and
the sorted (task, metric) pairs globbed from a method directory. -/
structure FS where
  listing : List String
  metricsCsv : String → String → String → Option (List (List Cell))
  taskMetrics : String → List (String × String)

/-- `os.path.join(results_dir, method_dir)` for a relative second component. -/
def pathJoin (a b : String) : String := a ++ "/" ++ b

/-- `load_metrics` on a path: `open` raises FileNotFoundError when the csv is
missing, then the rows are parsed. -/
def load_metrics_file (fs : FS) (dir task metricName : String) :
    Except Err (List (List ℚ)) :=
  match fs.metricsCsv dir task metricName with
  | none => .error .fileNotFound
  | some rows => load_metrics rows

/-- Source lines 130-147: resolve method directories (default discovery or
the explicit list), default the display names to the (unjoined) directory
names, then join each directory onto `results_dir`. -/
def resolveMethods (args : Args) (fs : FS) : List String × List String :=
  let dirs :=
    match args.method_dirs with
    | none => discoverMethodDirs fs.listing
    | some l => l
  let names :=
    match args.method_names with
    | none => dirs
    | some l => l
  (names, dirs.map (pathJoin args.results_dir))

/-- The `sort_criterion` loop: one metric mean per (name, dir) pair. -/
def meansFor (fs : FS) (task metricName : String) :
    List (String × String) → Except Err (List ℚ)
  | [] => .ok []
  | nd :: rest =>
    match load_metrics_file fs nd.2 task metricName with
    | .error e => .error e
    | .ok m =>
      match meansFor fs task metricName rest with
      | .error e => .error e
      | .ok ms => .ok (np_mean m :: ms)

/-- Source lines 149-157.  Without `--sort_by` the block is skipped and
`method_ids` is never bound (`none`); with it, the tagged entries are sorted
and unzipped (`zip(*sorted(...))` on an empty method list raises ValueError
at the 4-way unpacking). -/
def sortPhase (args : Args) (fs : FS) :
    Except Err (Option (List ℕ) × List String × List String) :=
  let nd := resolveMethods args fs
  let names := nd.1
  let dirs := nd.2
  match args.sort_by with
  | none => .ok (none, names, dirs)
  | some tm =>
    match meansFor fs tm.1 tm.2 (names.zip dirs) with
    | .error e => .error e
    | .ok means =>
      let entries := sort_methods (mkEntries means names dirs)
      if entries.isEmpty then
        .error .valueError
      else
        .ok (some (entries.map (fun e => e.2.1)),
          entries.map (fun e => e.2.2.1),
          entries.map (fun e => e.2.2.2))

/-- The inner metrics loop of the table (source lines 195-200): each
(task, metric) pair loads the csv and rebinds `num_samples` to its row
count. -/
def rowLoop (fs : FS) (dir : String) (pairs : List (String × String))
    (ns : Option ℕ) : Except Err (Option ℕ) :=
  match pairs with
  | [] => .ok ns
  | p :: ps =>
    match load_metrics_file fs dir p.1 p.2 with
    | .error e => .error e
    | .ok m => rowLoop fs dir ps (some m.length)

/-- The outer table loop over methods (source lines 192-203). -/
def tableLoop (fs : FS) (dirs : List String) (pairs : List (String × String))
    (ns : Option ℕ) : Except Err (Option ℕ) :=
  match dirs with
  | [] => .ok ns
  | d :: ds =>
    match rowLoop fs d pairs ns with
    | .error e => .error e
    | .ok ns2 => tableLoop fs ds pairs ns2

/-- `main`, returning the sample indices iterated by the image loop
(empty for `--only_metrics`).  Control-flow order follows the source:
the sort block, `method_dirs[0]` for the metric glob (IndexError when no
method exists), the table loop whose `zip(method_ids, ...)` reads
`method_ids` (NameError when `--sort_by` was not given), the
`--only_metrics` early return, and finally `range(num_samples)` (NameError
when the table loop never bound `num_samples`).  The per-sample body is
abstracted to a success; its file reads and writes are outside every claim's
hypotheses. -/
def mainRun (args : Args) (fs : FS) : Except Err (List ℕ) :=
  match sortPhase args fs with
  | .error e => .error e
  | .ok phased =>
    let idsOpt := phased.1
    let dirs := phased.2.2
    match dirs with
    | [] => .error .indexError
    | dir0 :: _ =>
      let pairs := fs.taskMetrics dir0
      match idsOpt with
      | none => .error .nameError
      | some _ =>
        match tableLoop fs dirs pairs none with
        | .error e => .error e
        | .ok nsOpt =>
          if args.only_metrics then
            .ok []
          else
            match nsOpt with
            | none => .error .nameError
            | some n => .ok (List.range n)

/- ---------------------------------------------------------------------------
Concrete fixtures used by closed theorems.
--------------------------------------------------------------------------- -/

/-- A run without `--sort_by` on one explicit method directory. -/
def c2args : Args :=
  { results_dir := "results", method_dirs := some ["m1"], method_names := none,
    sort_by := none, only_metrics := false }

/-- A well-formed filesystem for that run: one method, one metric table. -/
def c2fs : FS :=
  { listing := ["m1"],
    metricsCsv := fun _ _ _ =>
      some [[Cell.text "id", Cell.text "mse", Cell.text "mean"],
        [Cell.text "0", Cell.num 1, Cell.num 1]],
    taskMetrics := fun _ => [("prediction", "mse")] }

/-- A metrics table with a header, 3 data rows, and 2 metric columns between
the id column and the trailing mean column. -/
def c5table : List (List Cell) :=
  [[Cell.text "id", Cell.text "metricA", Cell.text "metricB", Cell.text "mean"],
   [Cell.text "0", Cell.num 1, Cell.num 2, Cell.text "1.5"],
   [Cell.text "1", Cell.num 3, Cell.num 4, Cell.text "3.5"],
   [Cell.text "2", Cell.num 5, Cell.num 6, Cell.text "5.5"]]

/-- A sorted run on one method with two metric tables. -/
def c10args : Args :=
  { results_dir := "r", method_dirs := some ["a"], method_names := none,
    sort_by := some ("t", "mse"), only_metrics := false }

/-- csv rows with 3 data rows. -/
def c10rows1 : List (List Cell) :=
  [[Cell.text "id", Cell.text "v", Cell.text "mean"],
   [Cell.text "0", Cell.num 1, Cell.num 1],
   [Cell.text "1", Cell.num 2, Cell.num 2],
   [Cell.text "2", Cell.num 3, Cell.num 3]]

/-- csv rows with 2 data rows. -/
def c10rows2 : List (List Cell) :=
  [[Cell.text "id", Cell.text "v", Cell.text "mean"],
   [Cell.text "0", Cell.num 4, Cell.num 4],
   [Cell.text "1", Cell.num 5, Cell.num 5]]

/-- Filesystem for the sorted run: the `psnr` table (globbed last) has 2 data
rows, every other table has 3. -/
def c10fs : FS :=
  { listing := [],
    metricsCsv := fun _ _ metricName =>
      if metricName = "psnr" then some c10rows2 else some c10rows1,
    taskMetrics := fun _ => [("t", "mse"), ("t", "psnr")] }

/- ---------------------------------------------------------------------------
Helper lemmas.
--------------------------------------------------------------------------- -/

theorem exists_ok_of_isOk {α : Type} {e : Except Err α} (h : e.isOk = true) :
    ∃ a, e = Except.ok a := by
  cases e with
  | error err => simp [Except.isOk, Except.toBool] at h
  | ok a => exact ⟨a, rfl⟩

theorem pullFront_two (l : List String) :
    pullFront ["ground_truth", "repeat"] l =
      ((if "ground_truth" ∈ l then ["ground_truth"] else []) ++
        (if "repeat" ∈ l.erase "ground_truth" then ["repeat"] else []),
        (l.erase "ground_truth").erase "repeat") := by
  unfold pullFront
  simp only [List.foldl]
  by_cases h1 : "ground_truth" ∈ l
  · by_cases h2 : "repeat" ∈ l.erase "ground_truth"
    · simp [h1, h2]
    · simp [h1, h2, List.erase_of_not_mem h2]
  · by_cases h2 : "repeat" ∈ l.erase "ground_truth"
    · simp [h1, h2, List.erase_of_not_mem h1] at h2 ⊢
      simp [h2]
    · simp [h1, List.erase_of_not_mem h1] at h2 ⊢
      simp [h2, List.erase_of_not_mem h2]

theorem astypeRow_of_num (r : List Cell) (h : ∀ c ∈ r, c.isNum = true) :
    astypeRow r = .ok (r.map Cell.val) := by
  induction r with
  | nil => rfl
  | cons c cs ih =>
    have hc := h c (by simp)
    have hcs := ih (fun x hx => h x (by simp [hx]))
    cases c with
    | num q => simp [astypeRow, astypeCell, hcs, Cell.val]
    | text s => simp [Cell.isNum] at hc

theorem astypeMatrix_of_num (mtx : List (List Cell))
    (h : ∀ r ∈ mtx, ∀ c ∈ r, c.isNum = true) :
    astypeMatrix mtx = .ok (mtx.map (fun r => r.map Cell.val)) := by
  induction mtx with
  | nil => rfl
  | cons r rs ih =>
    have hr := astypeRow_of_num r (h r (by simp))
    have hrs := ih (fun x hx => h x (by simp [hx]))
    simp [astypeMatrix, hr, hrs]

theorem rowLoop_cons_ok (fs : FS) (dir : String) (p : String × String)
    (ps : List (String × String)) (ns : Option ℕ) (m0 : List (List ℚ))
    (h : load_metrics_file fs dir p.1 p.2 = .ok m0) :
    rowLoop fs dir (p :: ps) ns = rowLoop fs dir ps (some m0.length) := by
  simp [rowLoop, h]

theorem tableLoop_cons_ok (fs : FS) (d : String) (ds : List String)
    (pairs : List (String × String)) (ns : Option ℕ) (r : Option ℕ)
    (h : rowLoop fs d pairs ns = .ok r) :
    tableLoop fs (d :: ds) pairs ns = tableLoop fs ds pairs r := by
  simp [tableLoop, h]

theorem rowLoop_ok (fs : FS) (dir : String) (pairs : List (String × String)) :
    ∀ ns : Option ℕ,
      (∀ p ∈ pairs, (load_metrics_file fs dir p.1 p.2).isOk = true) →
      ∃ r, rowLoop fs dir pairs ns = .ok r := by
  induction pairs with
  | nil => exact fun ns _ => ⟨ns, rfl⟩
  | cons p ps ih =>
    intro ns h
    obtain ⟨m0, hm0⟩ := exists_ok_of_isOk (h p (by simp))
    obtain ⟨r, hr⟩ := ih (some m0.length) (fun x hx => h x (by simp [hx]))
    exact ⟨r, by simp [rowLoop, hm0, hr]⟩

theorem rowLoop_last (fs : FS) (dir : String) (pairs : List (String × String)) :
    ∀ (ns : Option ℕ) (pl : String × String) (m : List (List ℚ)),
      pairs.getLast? = some pl →
      load_metrics_file fs dir pl.1 pl.2 = .ok m →
      (∀ p ∈ pairs, (load_metrics_file fs dir p.1 p.2).isOk = true) →
      rowLoop fs dir pairs ns = .ok (some m.length) := by
  induction pairs with
  | nil =>
    intro ns pl m hlast hm hok
    simp at hlast
  | cons p ps ih =>
    intro ns pl m hlast hm hok
    obtain ⟨m0, hm0⟩ := exists_ok_of_isOk (hok p (by simp))
    cases ps with
    | nil =>
      simp at hlast
      subst hlast
      simp [rowLoop, hm]
    | cons q ps2 =>
      rw [List.getLast?_cons_cons] at hlast
      have htail := ih (some m0.length) pl m hlast hm
        (fun x hx => hok x (by simp [hx]))
      rw [rowLoop_cons_ok fs dir p (q :: ps2) ns m0 hm0]
      exact htail

theorem tableLoop_last (fs : FS) (dirs : List String) :
    ∀ (pairs : List (String × String)) (ns : Option ℕ) (dl : String)
      (pl : String × String) (m : List (List ℚ)),
      dirs.getLast? = some dl →
      pairs.getLast? = some pl →
      load_metrics_file fs dl pl.1 pl.2 = .ok m →
      (∀ d ∈ dirs, ∀ p ∈ pairs, (load_metrics_file fs d p.1 p.2).isOk = true) →
      tableLoop fs dirs pairs ns = .ok (some m.length) := by
  induction dirs with
  | nil =>
    intro pairs ns dl pl m hdl hpl hm hok
    simp at hdl
  | cons d ds ih =>
    intro pairs ns dl pl m hdl hpl hm hok
    cases ds with
    | nil =>
      simp at hdl
      subst hdl
      have hrow := rowLoop_last fs d pairs ns pl m hpl hm (hok d (by simp))
      simp [tableLoop, hrow]
    | cons d2 ds2 =>
      obtain ⟨r, hr⟩ := rowLoop_ok fs d pairs ns (hok d (by simp))
      rw [List.getLast?_cons_cons] at hdl
      have htail := ih pairs r dl pl m hdl hpl hm
        (fun x hx => hok x (by simp [hx]))
      rw [tableLoop_cons_ok fs d (d2 :: ds2) pairs ns r hr]
      exact htail

/- ---------------------------------------------------------------------------
Claims about concat_images (C1, C7, C9).
--------------------------------------------------------------------------- -/

/-- C1: the code diverges from the claim.  On two sequences of 2 frames of
shapes (h, w) = (10, 10) and (8, 12), the global minima are min height 8 and
min width 10, but `cv2.resize` receives `(min_height, min_width)` as its
`(width, height)` argument, so every frame is resized to shape (10, 8) and
each composite frame has shape (10, 16) — not height `minH` and width
`minW * N` (which would be (8, 20)), nor the claim's example figure (8, 16). -/
theorem concat_images_resize_swap :
    concat_images [[⟨10, 10⟩, ⟨10, 10⟩], [⟨8, 12⟩, ⟨8, 12⟩]] =
      .ok [⟨10, 16⟩, ⟨10, 16⟩] ∧
    Img.mk 10 16 ≠ Img.mk 8 16 :=
  ⟨rfl, by decide⟩

/-- C7: refuted as universally stated.  Zipping does truncate to the shortest
sequence when every frame ends up with the same shape (first conjunct: 2 and 3
equally-sized frames yield exactly 2 composites), but the swapped `cv2.resize`
arguments can leave one frame at shape `(minH, minW)` while resizing the
others to `(minW, minH)`; `np.concatenate` then raises instead of producing
the truncated sequence (second conjunct: lengths 1 vs 2 yield an error, not
1 composite frame). -/
theorem concat_images_zip_truncation :
    concat_images [[⟨8, 8⟩, ⟨8, 8⟩], [⟨8, 8⟩, ⟨8, 8⟩, ⟨8, 8⟩]] =
      .ok [⟨8, 16⟩, ⟨8, 16⟩] ∧
    concat_images [[⟨8, 10⟩], [⟨9, 10⟩, ⟨9, 10⟩]] = .error .valueError :=
  ⟨rfl, rfl⟩

/-- C9 counterexample: called with an empty list of sequences, `concat_images`
does not fail — the minimum fold leaves `None`, `zip()` of no arguments is
empty, and the function returns normally. -/
theorem concat_images_empty_is_ok :
    (concat_images []).isOk = true :=
  rfl

/-- C9 amended: on an empty list of sequences `concat_images` returns the
empty composite sequence (no error is raised). -/
theorem concat_images_empty_returns_nil :
    concat_images [] = .ok [] :=
  rfl

/- ---------------------------------------------------------------------------
Claim about default method discovery (C6).
--------------------------------------------------------------------------- -/

/-- C6: confirmed.  Default discovery (after dropping the reserved `web`
output directory from the listing) puts `ground_truth` first and `repeat`
second, each only when present, and sorts every remaining candidate
lexicographically; on the listing {b, ground_truth, a, repeat} the order is
[ground_truth, repeat, a, b]. -/
theorem discoverMethodDirs_order :
    (∀ listing : List String,
      discoverMethodDirs listing =
        (if "ground_truth" ∈ listing.erase "web" then ["ground_truth"] else []) ++
        ((if "repeat" ∈ (listing.erase "web").erase "ground_truth" then ["repeat"] else []) ++
          pySortedStr (((listing.erase "web").erase "ground_truth").erase "repeat"))) ∧
    discoverMethodDirs ["b", "ground_truth", "a", "repeat"] =
      ["ground_truth", "repeat", "a", "b"] := by
  constructor
  · intro listing
    simp only [discoverMethodDirs, pullFront_two]
    simp [List.append_assoc]
  · decide

/- ---------------------------------------------------------------------------
Claim about mean and standard error (C3).
--------------------------------------------------------------------------- -/

/-- C3 counterexample: on the 3×1 matrix [[1], [2], [3]] the script's
standard error squared is `population variance / rows = (2/3)/3 = 2/9`, while
the claim's sample standard deviation gives `se² = 1/3`; the two disagree, so
`se` is not the sample standard deviation divided by √n. -/
theorem metric_se_population_counterexample :
    metric_se_sq [[1], [2], [3]] ≠ claimed_se_sq [[1], [2], [3]] ∧
    metric_se_sq [[1], [2], [3]] = 2 / 9 ∧
    claimed_se_sq [[1], [2], [3]] = 1 / 3 := by
  refine ⟨?_, ?_, ?_⟩ <;>
    norm_num [metric_se_sq, claimed_se_sq, np_var, sample_var, np_mean, flattenM]

/-- C3 amended: the mean is the arithmetic mean of all cells, and the printed
standard error is the *population* standard deviation (ddof = 0) of all cells
divided by the square root of the number of rows — in squared,
denominator-free form: `mean · #cells = Σ cells` and
`se² · (#cells · #rows) = Σ (x − mean)²`. -/
theorem mean_and_se_population (m : List (List ℚ)) (h : flattenM m ≠ []) :
    np_mean m * ((flattenM m).length : ℚ) = (flattenM m).sum ∧
    metric_se_sq m * (((flattenM m).length : ℚ) * (m.length : ℚ)) =
      ((flattenM m).map (fun x => (x - np_mean m) * (x - np_mean m))).sum := by
  have hL : ((flattenM m).length : ℚ) ≠ 0 := by
    exact_mod_cast fun e => h (List.length_eq_zero.mp (by exact_mod_cast e))
  have hmne : m ≠ [] := by
    intro he
    rw [he] at h
    simp [flattenM] at h
  have hR : ((m.length : ℕ) : ℚ) ≠ 0 := by
    exact_mod_cast fun e => hmne (List.length_eq_zero.mp (by exact_mod_cast e))
  constructor
  · rw [np_mean]
    exact div_mul_cancel₀ _ hL
  · rw [metric_se_sq, np_var, div_div]
    exact div_mul_cancel₀ _ (mul_ne_zero hL hR)

/-- C3 witness: the amended statement instantiated at the matrix
[[1], [2], [3]]. -/
theorem mean_and_se_population_witness :
    flattenM [[1], [2], [3]] ≠ [] ∧
    (np_mean [[1], [2], [3]] * ((flattenM [[1], [2], [3]]).length : ℚ) =
        (flattenM [[1], [2], [3]]).sum ∧
      metric_se_sq [[1], [2], [3]] *
          (((flattenM [[1], [2], [3]]).length : ℚ) * (([[1], [2], [3]] : List (List ℚ)).length : ℚ)) =
        ((flattenM [[1], [2], [3]]).map
          (fun x => (x - np_mean [[1], [2], [3]]) * (x - np_mean [[1], [2], [3]]))).sum) := by
  have h : flattenM [[1], [2], [3]] ≠ [] := by simp [flattenM]
  exact ⟨h, mean_and_se_population [[1], [2], [3]] h⟩

/- ---------------------------------------------------------------------------
Claim about sorting methods (C4).
--------------------------------------------------------------------------- -/

/-- C4: confirmed.  Sorting the tagged entries is a permutation that carries
each method's original index along, the result is ascending by mean with ties
broken by original index (whenever the original indices are distinct, as they
always are, being `range(len(method_names))`), and on means [0.5, 0.2, 0.2]
with indices [0, 1, 2] the resulting index order is [1, 2, 0]. -/
theorem sort_methods_stable_ascending :
    (∀ entries : List MethodEntry,
      (sort_methods entries).Perm entries ∧
      ((entries.map (fun e => e.2.1)).Nodup →
        (sort_methods entries).Pairwise
          (fun a b => a.1 < b.1 ∨ (a.1 = b.1 ∧ a.2.1 < b.2.1)))) ∧
    (sort_methods (mkEntries [0.5, 0.2, 0.2] ["m0", "m1", "m2"]
        ["d0", "d1", "d2"])).map (fun e => e.2.1) = [1, 2, 0] := by
  constructor
  · intro entries
    have hperm : (sort_methods entries).Perm entries :=
      List.perm_insertionSort pyTupleLe entries
    refine ⟨hperm, fun hnd => ?_⟩
    have hsorted : (sort_methods entries).Pairwise pyTupleLe :=
      List.sorted_insertionSort pyTupleLe entries
    have hne0 : entries.Pairwise (fun a b : MethodEntry => a.2.1 ≠ b.2.1) :=
      List.pairwise_map.mp hnd
    have hne : (sort_methods entries).Pairwise (fun a b : MethodEntry => a.2.1 ≠ b.2.1) :=
      (hperm.pairwise_iff (fun {_ _} hab e => hab e.symm)).mpr hne0
    refine (hsorted.and hne).imp ?_
    intro a b hab
    obtain ⟨hle, hne2⟩ := hab
    unfold pyTupleLe at hle
    rcases hle with h1 | ⟨e1, h⟩
    · exact Or.inl h1
    · rcases h with h2 | ⟨e2, _⟩
      · exact Or.inr ⟨e1, h2⟩
      · exact absurd e2 hne2
  · have hmk : mkEntries [0.5, 0.2, 0.2] ["m0", "m1", "m2"] ["d0", "d1", "d2"] =
        [(0.5, 0, "m0", "d0"), (0.2, 1, "m1", "d1"), (0.2, 2, "m2", "d2")] := rfl
    rw [sort_methods, hmk]
    norm_num [List.insertionSort, List.orderedInsert, pyTupleLe]

/-- C4 witness: the stability statement applied to the claim's own example,
whose original indices [0, 1, 2] are distinct. -/
theorem sort_methods_stable_ascending_witness :
    ((mkEntries [0.5, 0.2, 0.2] ["m0", "m1", "m2"] ["d0", "d1", "d2"]).map
        (fun e => e.2.1)).Nodup ∧
    (sort_methods (mkEntries [0.5, 0.2, 0.2] ["m0", "m1", "m2"] ["d0", "d1", "d2"])).Pairwise
      (fun a b => a.1 < b.1 ∨ (a.1 = b.1 ∧ a.2.1 < b.2.1)) := by
  have hnd : ((mkEntries [0.5, 0.2, 0.2] ["m0", "m1", "m2"] ["d0", "d1", "d2"]).map
      (fun e => e.2.1)).Nodup := by decide
  exact ⟨hnd, (sort_methods_stable_ascending.1 _).2 hnd⟩

/- ---------------------------------------------------------------------------
Claim about load_metrics (C5).
--------------------------------------------------------------------------- -/

/-- C5: confirmed.  On a non-empty rectangular table whose interior data cells
are all numeric, `load_metrics` returns exactly the data rows (header
discarded) with the first and last column stripped and the remaining cells
parsed; the matrix has `#rows − 1` rows of `k − 2` entries each. -/
theorem load_metrics_strips (rows : List (List Cell)) (k : ℕ)
    (hne : rows ≠ [])
    (hlen : ∀ r ∈ rows, r.length = k)
    (hnum : ∀ r ∈ rows.drop 1, ∀ c ∈ (r.drop 1).dropLast, c.isNum = true) :
    load_metrics rows =
      .ok ((rows.drop 1).map (fun r => ((r.drop 1).dropLast).map Cell.val)) ∧
    ((rows.drop 1).map (fun r => ((r.drop 1).dropLast).map Cell.val)).length =
      rows.length - 1 ∧
    ∀ row ∈ (rows.drop 1).map (fun r => ((r.drop 1).dropLast).map Cell.val),
      row.length = k - 2 := by
  cases rows with
  | nil => exact absurd rfl hne
  | cons r0 rest =>
    have hall : rest.all (fun r => r.length == r0.length) = true := by
      rw [List.all_eq_true]
      intro r hr
      have h1 : r.length = k := hlen r (by simp [hr])
      have h2 : r0.length = k := hlen r0 (by simp)
      simp [h1, h2]
    have hnum2 : ∀ r ∈ rest.map (fun r => (r.drop 1).dropLast), ∀ c ∈ r, c.isNum = true := by
      intro r hr c hc
      obtain ⟨r1, hr1, he⟩ := List.mem_map.mp hr
      subst he
      exact hnum r1 (by simpa using hr1) c hc
    have hast := astypeMatrix_of_num (rest.map (fun r => (r.drop 1).dropLast)) hnum2
    refine ⟨?_, ?_, ?_⟩
    · rw [load_metrics]
      simp only [hall, if_pos]
      rw [hast]
      simp [List.map_map, Function.comp]
    · simp
    · intro row hrow
      simp only [List.drop_succ_cons, List.drop_zero, List.mem_map] at hrow
      obtain ⟨r1, hr1, he⟩ := hrow
      subst he
      have hk : r1.length = k := hlen r1 (by simp [hr1])
      simp [hk]
      omega

/-- C5 witness: the contract instantiated on a table with a header, 3 data
rows, and 2 metric columns between the id and mean columns, yielding a 3×2
matrix. -/
theorem load_metrics_strips_witness :
    c5table ≠ [] ∧ (∀ r ∈ c5table, r.length = 4) ∧
    (∀ r ∈ c5table.drop 1, ∀ c ∈ (r.drop 1).dropLast, c.isNum = true) ∧
    (load_metrics c5table =
        .ok ((c5table.drop 1).map (fun r => ((r.drop 1).dropLast).map Cell.val)) ∧
      ((c5table.drop 1).map (fun r => ((r.drop 1).dropLast).map Cell.val)).length =
        c5table.length - 1 ∧
      ∀ row ∈ (c5table.drop 1).map (fun r => ((r.drop 1).dropLast).map Cell.val),
        row.length = 4 - 2) := by
  refine ⟨?_, ?_, ?_, load_metrics_strips c5table 4 ?_ ?_ ?_⟩ <;> decide

/- ---------------------------------------------------------------------------
Claim about load_images (C8).
--------------------------------------------------------------------------- -/

/-- C8 counterexample: with a path list containing a path that names no
decodable file, `load_images` fails with the OpenCV color-conversion error on
the null decode result — which is not a FileNotFound error. -/
theorem load_images_missing_error_kind :
    load_images (fun f => if f = "a.jpg" then some ⟨4, 5⟩ else none)
        ["a.jpg", "missing.jpg"] = .error Err.cvError ∧
    Err.cvError ≠ Err.fileNotFound :=
  ⟨rfl, by decide⟩

/-- C8 amended: when every path decodes, `load_images` returns the decoded
images 1:1 with the input paths in order; when any path fails to decode
(missing or unreadable file), it fails with the OpenCV error raised by the
color conversion of the null image — not a FileNotFound error — and returns
no partial result. -/
theorem load_images_ordered :
    (∀ (decode : String → Option Img) (fnames : List String),
      (∀ f ∈ fnames, (decode f).isSome = true) →
      load_images decode fnames = .ok (fnames.filterMap decode) ∧
        (fnames.filterMap decode).length = fnames.length) ∧
    (∀ (decode : String → Option Img) (fnames : List String),
      (∃ f ∈ fnames, decode f = none) →
      load_images decode fnames = .error Err.cvError) := by
  constructor
  · intro decode fnames h
    induction fnames with
    | nil => exact ⟨rfl, rfl⟩
    | cons f fs ih =>
      have hf : (decode f).isSome = true := h f (by simp)
      obtain ⟨i, hi⟩ := Option.isSome_iff_exists.mp hf
      obtain ⟨ih1, ih2⟩ := ih (fun x hx => h x (by simp [hx]))
      constructor
      · simp [load_images, hi, cv2_cvtColor, ih1, List.filterMap_cons]
      · simp [hi, List.filterMap_cons, ih2]
  · intro decode fnames h
    induction fnames with
    | nil => simp at h
    | cons f fs ih =>
      cases hf : decode f with
      | none => simp [load_images, hf, cv2_cvtColor]
      | some i =>
        obtain ⟨f0, hf0, hnone⟩ := h
        rcases List.mem_cons.mp hf0 with he | hmem
        · subst he
          rw [hnone] at hf
          exact absurd hf (by simp)
        · have htail := ih ⟨f0, hmem, hnone⟩
          simp [load_images, hf, cv2_cvtColor, htail]

/-- C8 witness: both halves of the amended statement applied at concrete
inputs — two decodable paths load 1:1 in order, and a list containing an
undecodable path raises the OpenCV error. -/
theorem load_images_ordered_witness :
    (∀ f ∈ ["x.jpg", "y.jpg"], ((fun _ => some (⟨2, 3⟩ : Img)) f).isSome = true) ∧
    (load_images (fun _ => some (⟨2, 3⟩ : Img)) ["x.jpg", "y.jpg"] =
        .ok (["x.jpg", "y.jpg"].filterMap (fun _ => some (⟨2, 3⟩ : Img))) ∧
      (["x.jpg", "y.jpg"].filterMap (fun _ => some (⟨2, 3⟩ : Img))).length =
        ["x.jpg", "y.jpg"].length) ∧
    (∃ f ∈ ["z.jpg"], (fun _ => (none : Option Img)) f = none) ∧
    load_images (fun _ => (none : Option Img)) ["z.jpg"] = .error Err.cvError := by
  have h1 : ∀ f ∈ ["x.jpg", "y.jpg"], ((fun _ => some (⟨2, 3⟩ : Img)) f).isSome = true := by
    decide
  have h2 : ∃ f ∈ ["z.jpg"], (fun _ => (none : Option Img)) f = none := ⟨"z.jpg", by simp, rfl⟩
  exact ⟨h1, load_images_ordered.1 _ _ h1, h2, load_images_ordered.2 _ _ h2⟩

/- ---------------------------------------------------------------------------
Claim about exit behavior (C2).
--------------------------------------------------------------------------- -/

/-- C2: the code diverges from the claim.  On a well-formed run with one
method and one metric table but no sort specification, the table loop's
`zip(method_ids, method_names, method_dirs)` reads `method_ids`, which is
only assigned inside the `if args.sort_by:` block; the run dies with a
NameError and exits non-zero even though no input failure occurred. -/
theorem mainRun_without_sort_by_raises :
    mainRun c2args c2fs = .error Err.nameError :=
  rfl

/- ---------------------------------------------------------------------------
Claim about the image-loop sample range (C10).
--------------------------------------------------------------------------- -/

/-- C10: confirmed.  The number of sample indices iterated by the image loop
is not discovered from image files: whenever the sort phase yields the method
list, every table-loop load succeeds and metrics-only mode is off, `main`
iterates exactly the indices `0 .. rows(last-loaded matrix) − 1`, where the
last-loaded matrix belongs to the last method in table order and the last
(task, metric) pair globbed from the first method. -/
theorem mainRun_samples_from_last_metrics
    (args : Args) (fs : FS) (ids : List ℕ) (names dirs : List String)
    (d0 dl : String) (pl : String × String) (m : List (List ℚ))
    (hphase : sortPhase args fs = .ok (some ids, names, dirs))
    (hd0 : dirs.head? = some d0)
    (hdl : dirs.getLast? = some dl)
    (hpl : (fs.taskMetrics d0).getLast? = some pl)
    (hm : load_metrics_file fs dl pl.1 pl.2 = .ok m)
    (hloads : ∀ d ∈ dirs, ∀ p ∈ fs.taskMetrics d0,
      (load_metrics_file fs d p.1 p.2).isOk = true)
    (honly : args.only_metrics = false) :
    mainRun args fs = .ok (List.range m.length) := by
  cases dirs with
  | nil => simp at hd0
  | cons dd ds =>
    have hd0e : dd = d0 := by simpa using hd0
    subst hd0e
    have htab := tableLoop_last fs (dd :: ds) (fs.taskMetrics dd) none dl pl m
      hdl hpl hm hloads
    simp [mainRun, hphase, htab, honly]

/-- C10 witness: a sorted run on one method with two metric tables of 3 and 2
data rows; the image loop covers exactly `range 2`, the row count of the
last-loaded table. -/
theorem mainRun_samples_from_last_metrics_witness :
    sortPhase c10args c10fs = .ok (some [0], ["a"], ["r/a"]) ∧
    (["r/a"] : List String).head? = some "r/a" ∧
    (["r/a"] : List String).getLast? = some "r/a" ∧
    (c10fs.taskMetrics "r/a").getLast? = some ("t", "psnr") ∧
    load_metrics_file c10fs "r/a" "t" "psnr" = .ok [[4], [5]] ∧
    (∀ d ∈ (["r/a"] : List String), ∀ p ∈ c10fs.taskMetrics "r/a",
      (load_metrics_file c10fs d p.1 p.2).isOk = true) ∧
    c10args.only_metrics = false ∧
    mainRun c10args c10fs = .ok (List.range ([[4], [5]] : List (List ℚ)).length) := by
  refine ⟨rfl, rfl, rfl, rfl, rfl, ?_, rfl, ?_⟩
  · decide
  · exact mainRun_samples_from_last_metrics c10args c10fs [0] ["a"] ["r/a"]
      "r/a" "r/a" ("t", "psnr") [[4], [5]] rfl rfl rfl rfl rfl (by decide) rfl
